import Mathlib

/-!
Verification development for the "fix" execution-pipeline library.

Each definition below is a shallow embedding of one function of the
source (packages/core/bracket.ts, weave.ts, executor.ts, utils.ts,
validation.ts, std/macros.ts).  Asynchronous behaviour is made explicit:
the outcome of an awaited call becomes an `Except` value supplied as a
parameter, timestamps become natural numbers, and observable side
effects (release calls, log entries, sleeps) are collected in result
records.
-/

namespace Fix

/-! ### bracket (packages/core/bracket.ts)

Source:
```
const { value, release } = await acquire();
try {
  return await use(value);
} finally {
  try {
    if (finalizer) await finalizer(value);
    await release();
  } catch {
    // swallow
  }
}
```
The model takes the outcome of each awaited call as a parameter and
records how often `release` was invoked.  Note the control flow of the
finally block: when the finalizer rejects, the exception jumps to the
catch clause and the `await release()` statement is never executed.
-/

/-- Outcome of one execution of `bracket`: the value returned (or the
error propagated) to the caller, and how often `release` and the
finalizer were invoked. -/
structure BracketRun (E R : Type) where
  result : Except E R
  releaseCalls : Nat
  finalizerCalls : Nat
  deriving Repr

/-- Shallow embedding of `bracket`.  `acquire` is the outcome of
`await acquire()`; on success the acquired `Releasable` carries a
`release` whose own outcome is `releaseOutcome` (its rejection is
swallowed by the catch, so it only matters that it was called);
`use` is the outcome of `await use(value)`; `finalizer` is `none` when
no finalizer was supplied, otherwise the outcome of awaiting it. -/
def bracket (acquire : Except E Unit) (use : Except E R)
    (finalizer : Option (Except E Unit)) (_releaseOutcome : Except E Unit) :
    BracketRun E R :=
  match acquire with
  | .error e => { result := .error e, releaseCalls := 0, finalizerCalls := 0 }
  | .ok _ =>
    match finalizer with
    | some (.error _) =>
      -- the finalizer rejected: control jumps to the catch clause,
      -- skipping the `await release()` that follows it
      { result := use, releaseCalls := 0, finalizerCalls := 1 }
    | some (.ok _) =>
      -- finalizer resolved, then release ran (its outcome is swallowed)
      { result := use, releaseCalls := 1, finalizerCalls := 1 }
    | none =>
      { result := use, releaseCalls := 1, finalizerCalls := 0 }

/-! ### withAcquireTimeout (packages/core/weave.ts, lines 134-175)

The wrapper races the acquire against a timer of `acquireMs`
milliseconds.  A `then`-handler attached to the acquire promise
remembers whether the timer already fired (`timedOut`) and, if so,
releases the late-arriving resource itself.  The model represents the
acquire behaviour by its resolution time `t` (or rejection time) and
whether the resolved value carries a `release` function; the timer
fires at time `ms`.  Tie-breaking convention: at `t = ms` the
resolution is modelled as winning the race (only the strict order
matters for the claims). -/

/-- Behaviour of the underlying acquire call: it either resolves at
time `t` (with or without a `release` function on the result), or
rejects at time `t`. -/
inductive AcqBeh (V : Type) where
  | resolves (t : Nat) (hasRelease : Bool) (v : V)
  | rejects (t : Nat) (e : String)
  deriving Repr, DecidableEq

/-- Outcome of one call through `withAcquireTimeout`: what the caller
receives, and how often the wrapper itself invoked `release` on a
late-arriving resource. -/
structure AcqTimeoutRun (V : Type) where
  caller : Except String V
  wrapperReleaseCalls : Nat
  deriving Repr

/-- Shallow embedding of `withAcquireTimeout`.  If the acquire resolves
strictly after the timer fired, the caller already received the
"acquire-timeout" rejection and the wrapper's `then`-handler sees
`timedOut = true`, invoking `release()` exactly once (when present,
swallowing its failure).  If the acquire settles first the timer is
cleared and the outcome is passed through. -/
def withAcquireTimeout (ms : Nat) (beh : AcqBeh V) : AcqTimeoutRun V :=
  match beh with
  | .resolves t hasRelease v =>
    if ms < t then
      { caller := .error "acquire-timeout",
        wrapperReleaseCalls := if hasRelease then 1 else 0 }
    else
      { caller := .ok v, wrapperReleaseCalls := 0 }
  | .rejects t e =>
    if ms < t then
      { caller := .error "acquire-timeout", wrapperReleaseCalls := 0 }
    else
      { caller := .error e, wrapperReleaseCalls := 0 }

/-! ### withJitter (packages/core/utils.ts, lines 5-8)

Source:
```
export function withJitter(delay: number): number {
  const r = Math.random();
  return Math.round(delay * (0.5 + r)); // [0.5x, 1.5x]
}
```
`Math.random()` yields a value in [0, 1); `Math.round(x)` for
non-negative x is the floor of x + 1/2 (halves round up), which is
exactly Mathlib's `round` on nonnegative rationals. -/

/-- Shallow embedding of `withJitter`: the randomized delay for base
delay `delay` when the random source yields `r`. -/
def withJitter (delay : Nat) (r : ℚ) : ℤ :=
  round ((delay : ℚ) * (1 / 2 + r))

/-! ### wrapRetry (packages/core/weave.ts, lines 4-28)

Source loop:
```
let attempt = 0;
let lastErr: unknown;
while (attempt <= times) {
  try {
    return await fn.apply(this, args);
  } catch (e) {
    lastErr = e;
    const delay = jitter ? withJitter(delayMs) : delayMs;
    await sleep(delay);
    attempt++;
  }
}
throw lastErr;
```
The underlying call's outcome on its n-th invocation is `beh n`; the
random source's value before the n-th sleep is `rand n`.  The model
records every sleep duration and the number of invocations. -/

/-- Outcome of one call through a retry-wrapped function: the value or
the thrown last error (`.error none` is the impossible empty-loop case),
the number of invocations of the underlying function, and the sleep
durations in order. -/
structure RetryRun (E V : Type) where
  result : Except (Option E) V
  calls : Nat
  sleeps : List ℚ

/-- The retry loop: `fuel` is the number of remaining loop iterations
(`times + 1 - attempt`), `n` the invocation counter, `lastErr` the
error of the most recent failed attempt. -/
def retryGo (delayMs : Nat) (jitter : Bool) (rand : Nat → ℚ)
    (beh : Nat → Except E V) :
    Nat → Nat → Option E → List ℚ → RetryRun E V
  | 0, n, lastErr, sleeps => { result := .error lastErr, calls := n, sleeps := sleeps }
  | fuel + 1, n, _, sleeps =>
    match beh n with
    | .ok v => { result := .ok v, calls := n + 1, sleeps := sleeps }
    | .error e =>
      let delay : ℚ := if jitter then (withJitter delayMs (rand n) : ℚ) else delayMs
      retryGo delayMs jitter rand beh fuel (n + 1) (some e) (sleeps ++ [delay])

/-- Shallow embedding of a call through `wrapRetry` with policy
`{ times, delayMs, jitter }`. -/
def wrapRetry (times delayMs : Nat) (jitter : Bool) (rand : Nat → ℚ)
    (beh : Nat → Except E V) : RetryRun E V :=
  retryGo delayMs jitter rand beh (times + 1) 0 none []

/-! ### wrapCircuit / getCircuitState (packages/core/weave.ts, lines 60-107)

Source of the per-call behaviour:
```
const now = Date.now();
const openUntil = state.openUntil ?? 0;
if (now < openUntil) {
  logger?.warn?.(...circuit-open...);
  throw new Error("circuit-open");
}
try {
  const out = await fn.apply(this, args);
  state.openUntil = 0;
  return out;
} catch (e) {
  state.openUntil = Date.now() + cooldown;
  logger?.warn?.(...circuit-trip...);
  throw e;
}
```
`cooldown = policy.halfOpenAfterMs ?? 30_000`.  `Date.now()` is read
twice: `tCheck` at entry and `tFail` after a failed invocation
(`tCheck ≤ tFail`). -/

/-- Mutable circuit-breaker state: `{ openUntil?: number }`. -/
structure CircuitState where
  openUntil : Option Nat
  deriving Repr, DecidableEq

/-- Error surfaced by a circuit-wrapped call: the synthetic
"circuit-open" error or the rethrown inner error. -/
inductive CircuitErr (E : Type) where
  | circuitOpen
  | inner (e : E)
  deriving Repr

/-- Outcome of one call through a circuit-wrapped function: the state
after the call, whether the wrapped function was invoked, whether a
warning log entry was emitted, and the result. -/
structure CircuitCall (E V : Type) where
  state : CircuitState
  invoked : Bool
  warned : Bool
  result : Except (CircuitErr E) V

/-- The cooldown applied by `wrapCircuit`:
`policy.halfOpenAfterMs ?? 30_000`. -/
def cooldownOf (halfOpenAfterMs : Option Nat) : Nat :=
  halfOpenAfterMs.getD 30000

/-- Shallow embedding of one call through a `wrapCircuit`-wrapped
method.  `tCheck` is `Date.now()` at entry, `tFail` is `Date.now()`
after a failed invocation, `inner` the outcome of the wrapped call. -/
def circuitCall (cooldown tCheck tFail : Nat) (state : CircuitState)
    (inner : Except E V) : CircuitCall E V :=
  let openUntil := state.openUntil.getD 0
  if tCheck < openUntil then
    { state := state, invoked := false, warned := true, result := .error .circuitOpen }
  else
    match inner with
    | .ok v =>
      { state := { openUntil := some 0 }, invoked := true, warned := false,
        result := .ok v }
    | .error e =>
      { state := { openUntil := some (tFail + cooldown) }, invoked := true,
        warned := true, result := .error (.inner e) }

/-- Shallow embedding of `getCircuitState`:
`provider?.(policy.name ?? label, policy) ?? { openUntil: 0 }`.
Without a provider every call manufactures a fresh `{ openUntil: 0 }`
state object. -/
def getCircuitState (label : String) (policyName : Option String)
    (provider : Option (String → CircuitState)) : CircuitState :=
  match provider with
  | some p => p (policyName.getD label)
  | none => { openUntil := some 0 }

/-! ### weave: effect-port wrapping order (packages/core/weave.ts, lines 225-250)

Source:
```
const wrapPort = (k: string) => {
  if (!out[k]) return;
  let p = out[k];
  if (circuit) p = wrapCircuit(p, circuit, log, k, opts?.getCircuit);
  if (log) p = wrapLog(p, log, k);
  if (retry) p = wrapRetry(p, retry);
  if (timeout?.ms) p = wrapTimeout(p, timeout);
  out[k] = p;
};
wrapPort("http"); wrapPort("kv"); wrapPort("db"); wrapPort("queue");
```
The wrapping structure is modelled syntactically: a wrapped port is the
original port surrounded by the decorators in application order (the
first decorator applied is innermost).  `wrapTimeout` itself returns
the port unchanged when `policy.ms ?? 0` is falsy, matching the
`if (timeout?.ms)` guard. -/

/-- The decorator nest built around a port by `weave`. -/
inductive PortWrap where
  | base
  | circuitW (inner : PortWrap)
  | logW (inner : PortWrap)
  | retryW (inner : PortWrap)
  | timeoutW (inner : PortWrap)
  deriving Repr, DecidableEq

/-- The policy-relevant part of a step's meta for the weaver: which of
the four policies are configured.  `timeoutMs` is `meta.timeout?.ms`
(absent timeout key encoded as `none`). -/
structure WeavePolicies where
  circuit : Bool
  retry : Bool
  timeoutMs : Option Nat
  deriving Repr, DecidableEq

/-- Shallow embedding of the `wrapPort` closure of `weave`: the
decorator nest built around one present effect port.  `hasLog` is the
truthiness of `caps.log`. -/
def wrapPort (m : WeavePolicies) (hasLog : Bool) (p : PortWrap) : PortWrap :=
  let p := if m.circuit then .circuitW p else p
  let p := if hasLog then .logW p else p
  let p := if m.retry then .retryW p else p
  let p := if (m.timeoutMs.getD 0) ≠ 0 then .timeoutW p else p
  p

/-- The four effect ports of the capability set (absent ports are
`none`) plus the truthiness of `caps.log`. -/
structure EffectCaps where
  http : Option PortWrap
  kv : Option PortWrap
  db : Option PortWrap
  queue : Option PortWrap
  hasLog : Bool
  deriving Repr, DecidableEq

/-- Shallow embedding of the effect-port part of `weave`: each of
`http`, `kv`, `db`, `queue` present in the capability set is replaced
by its wrapped version (`if (!out[k]) return` skips absent ports). -/
def weaveEffects (m : WeavePolicies) (caps : EffectCaps) : EffectCaps :=
  { caps with
    http := caps.http.map (wrapPort m caps.hasLog)
    kv := caps.kv.map (wrapPort m caps.hasLog)
    db := caps.db.map (wrapPort m caps.hasLog)
    queue := caps.queue.map (wrapPort m caps.hasLog) }

/-! ### Semantics of the circuit→log→retry nest

For the ordering claim we also give the per-attempt semantics of the
nest `wrapRetry(wrapLog(wrapCircuit(fn)))` as built by `wrapPort`: the
retry loop's attempt invokes the log wrapper, which invokes the circuit
guard, which may invoke the underlying function.  Each attempt produces
exactly one circuit-guard check and one log entry (the log wrapper logs
both outcomes), and the circuit state is threaded through attempts. -/

/-- Trace of the circuit→log→retry nest on one step-through:
final result, number of attempts made by the retry loop, number of
executions of the circuit guard, number of log entries emitted by the
log wrapper, number of invocations of the underlying function, and the
final circuit state. -/
structure ClrRun (E V : Type) where
  result : Except (Option (CircuitErr E)) V
  attempts : Nat
  guardChecks : Nat
  logEntries : Nat
  innerCalls : Nat
  state : CircuitState

/-- The retry loop around the log-wrapped circuit guard.  `tAt n` is
the pair of `Date.now()` readings during attempt `n`; `beh n` the
outcome the underlying function would produce on its n-th attempt.
Each attempt executes the circuit guard exactly once (guardChecks + 1)
and makes the log wrapper emit exactly one entry (logEntries + 1:
debug on success, error on failure — including the synthetic
circuit-open error); the underlying function runs only when the guard
lets the call through. -/
def clrGo (cooldown : Nat) (tAt : Nat → Nat × Nat) (beh : Nat → Except E V) :
    Nat → Nat → Option (CircuitErr E) → CircuitState → ClrRun E V → ClrRun E V
  | 0, _, lastErr, st, acc =>
    { acc with result := .error lastErr, state := st }
  | fuel + 1, n, _, st, acc =>
    let c := circuitCall cooldown (tAt n).1 (tAt n).2 st (beh n)
    let acc := { acc with
      attempts := acc.attempts + 1
      guardChecks := acc.guardChecks + 1
      logEntries := acc.logEntries + 1
      innerCalls := acc.innerCalls + (if c.invoked then 1 else 0) }
    match c.result with
    | .ok v => { acc with result := .ok v, state := c.state }
    | .error e => clrGo cooldown tAt beh fuel (n + 1) (some e) c.state acc

/-- Semantics of a call through the full nest
`wrapRetry(wrapLog(wrapCircuit(fn)))` with retry policy `times`. -/
def clrRun (times cooldown : Nat) (tAt : Nat → Nat × Nat)
    (beh : Nat → Except E V) (st : CircuitState) : ClrRun E V :=
  clrGo cooldown tAt beh (times + 1) 0 none st
    { result := .error none, attempts := 0, guardChecks := 0, logEntries := 0,
      innerCalls := 0, state := st }

/-! ### Capability merge (packages/core/executor.ts, lines 86-100)

Source:
```
const caps: any = { bracket };
const resolved = await Promise.all(
  matched.map(async (macro) => await macro.resolve(step.meta as any, env)),
);
for (const partial of resolved) {
  if (!partial) continue;
  const { lease: leasePartial, ...rest } = partial as any;
  if (rest && Object.keys(rest).length) Object.assign(caps, rest);
  if (leasePartial) {
    caps.lease = { ...(caps.lease ?? {}), ...leasePartial };
  }
}
```
Objects are modelled as key/value lists where a lookup returns the
LAST binding for a key, so that list concatenation is exactly the
"later assignment wins" semantics of `Object.assign` and of object
spread. -/

/-- A JavaScript object as used by the merge: an ordered list of
key/value assignments; the value of a key is its last assignment. -/
abbrev Obj := List (String × Nat)

/-- Property lookup: the last assignment to `k` wins (as in an object
built by successive assignments/spreads). -/
def objGet (o : Obj) (k : String) : Option Nat :=
  (o.reverse.find? (fun kv => kv.1 = k)).map (·.2)

/-- One macro's resolved partial capability object, split as the
executor does: the `lease` sub-object (if the partial has a `lease`
key) and all remaining top-level keys. -/
structure ResolvedCaps where
  lease : Option Obj
  rest : Obj
  deriving Repr, DecidableEq

/-- The accumulated capability object: the `bracket` helper installed
at the start, the optional merged `lease` object, and all other keys. -/
structure CapsAcc where
  hasBracket : Bool
  lease : Option Obj
  rest : Obj
  deriving Repr, DecidableEq

/-- The merge of one resolved partial into the accumulator (one
iteration of the `for (const partial of resolved)` loop; `none`
models a falsy partial, skipped by `if (!partial) continue`). -/
def mergeOne (acc : CapsAcc) (p : Option ResolvedCaps) : CapsAcc :=
  match p with
  | none => acc
  | some p =>
    let acc := if p.rest ≠ [] then { acc with rest := acc.rest ++ p.rest } else acc
    match p.lease with
    | some lp => { acc with lease := some ((acc.lease.getD []) ++ lp) }
    | none => acc

/-- Shallow embedding of the capability merge: start from
`{ bracket }` and fold the resolved partials in list order. -/
def mergeCaps (resolved : List (Option ResolvedCaps)) : CapsAcc :=
  resolved.foldl mergeOne { hasBracket := true, lease := none, rest := [] }

/-- Shallow embedding of `Promise.all` as used above: each promise's
result is stored at the index of that promise, so the output order is
the input order no matter when each promise settles.  `settleTimes`
assigns every macro its completion time and does not influence the
result. -/
def promiseAll (resolved : List α) (_settleTimes : List Nat) : List α :=
  resolved

/-- Lookup into the merged lease object. -/
def leaseGet (acc : CapsAcc) (k : String) : Option Nat :=
  objGet (acc.lease.getD []) k

/-! ### Executor phases: before / run / after (packages/core/executor.ts, lines 118-151)

Source:
```
for (const macro of matched) {
  if (macro.before) { await macro.before(ctx); }
}
if (hasMacroResult(ctx)) { return getMacroResult<Out>(ctx)!; }
try {
  const out = await step.run(ctx);
  let result = out;
  for (const macro of matched) {
    if (macro.after) { result = await macro.after(result, ctx); }
  }
  if (hasMacroResult(ctx)) { return getMacroResult<Out>(ctx)!; }
  return result;
} catch (error) {
  for (const macro of matched) {
    if (macro.onError) {
      const maybe = await macro.onError(error, ctx);
      if (maybe !== undefined) return maybe as Out;
    }
  }
  if (hasMacroResult(ctx)) { return getMacroResult<Out>(ctx)!; }
  throw error;
}
```
with, from packages/core/types.ts (lines 95-119):
```
setMacroResult: ctx[FIX_SKIP] = true; ctx[FIX_VALUE] = value;
hasMacroResult: Boolean(ctx[FIX_SKIP]);
getMacroResult: ctx[FIX_VALUE];
```
The context is modelled by its sentinel fields plus a trace list in
which hooks can record observable side effects. -/

/-- The execution context as the hooks see it: the two symbol-keyed
sentinel fields and a trace of observable hook side effects. -/
structure ExecCtx (V : Type) where
  skip : Bool := false
  value : Option V := none
  trace : List Nat := []
  deriving Repr

/-- Embedding of `setMacroResult(ctx, value)`. -/
def setMacroResult (v : V) (c : ExecCtx V) : ExecCtx V :=
  { c with skip := true, value := some v }

/-- Embedding of `hasMacroResult(ctx)`. -/
def hasMacroResult (c : ExecCtx V) : Bool := c.skip

/-- Embedding of `getMacroResult(ctx)`. -/
def getMacroResult (c : ExecCtx V) : Option V := c.value

/-- The executor's before loop: every matched macro's before hook runs,
in registration order, with no early exit (a hook is an arbitrary
function on the context, as `macro.before(ctx)` is). -/
def beforeLoop (hooks : List (ExecCtx V → ExecCtx V)) (c : ExecCtx V) : ExecCtx V :=
  hooks.foldl (fun c h => h c) c

/-- A matched macro's before hook, as a datatype of the behaviours a
hook can exhibit against the context: set the short-circuit result,
perform an observable effect (recorded in the trace), or do nothing. -/
inductive BeforeHook (V : Type) where
  | setResult (v : V)
  | probe (i : Nat)
  | noop
  deriving Repr

/-- Interpreting one before-hook behaviour as a function on the
context. -/
def applyBefore : BeforeHook V → ExecCtx V → ExecCtx V
  | .setResult v, c => setMacroResult v c
  | .probe i, c => { c with trace := c.trace ++ [i] }
  | .noop, c => c

/-- The identifiers of the probe hooks of a hook list, in order. -/
def probeIds : List (BeforeHook V) → List Nat
  | [] => []
  | .probe i :: t => i :: probeIds t
  | _ :: t => probeIds t

/-- The value set by the LAST `setResult` hook of a hook list, if
any. -/
def lastSet : List (BeforeHook V) → Option V
  | [] => none
  | h :: t =>
    match lastSet t with
    | some v => some v
    | none => match h with | .setResult v => some v | _ => none

/-- Outcome of the before/run/after phases: the final value returned to
the caller (`none` only for a rethrown error), how often `step.run` was
invoked, how many after hooks ran, and the final context. -/
structure PhasesRun (V : Type) where
  result : Option V
  runCalls : Nat
  afterCalls : Nat
  ctx : ExecCtx V
  deriving Repr

/-- Shallow embedding of the executor's before → (short-circuit check)
→ run → after → (short-circuit check) phases on the success path of
`run` (`runVal` is the value `step.run` produces when invoked; after
hooks are value transformers that may also touch the context). -/
def runPhases (befores : List (ExecCtx V → ExecCtx V)) (runVal : V)
    (afters : List (V → ExecCtx V → V × ExecCtx V)) (c0 : ExecCtx V) :
    PhasesRun V :=
  let c1 := beforeLoop befores c0
  if hasMacroResult c1 then
    { result := getMacroResult c1, runCalls := 0, afterCalls := 0, ctx := c1 }
  else
    let step1 : V × ExecCtx V × Nat := (runVal, c1, 0)
    let step2 := afters.foldl
      (fun acc h =>
        let (v, c, n) := acc
        let (v2, c2) := h v c
        (v2, c2, n + 1)) step1
    let (v, c2, n) := step2
    if hasMacroResult c2 then
      { result := getMacroResult c2, runCalls := 1, afterCalls := n, ctx := c2 }
    else
      { result := some v, runCalls := 1, afterCalls := n, ctx := c2 }

/-! ### The idempotency macro's before hook (std/macros.ts)

Source:
```
before: async (ctx) => {
  const key = ctx?.meta?.idempotency?.key ?? ctx?.idempotencyKey;
  if (!key || !ctx.kv) return;
  const existing = await ctx.kv.get(`idem:` + key);
  if (existing !== null && existing !== undefined) {
    ctx.log?.info?.("idempotency.hit", { key });
    setMacroResult(ctx, existing);
  }
},
```
-/

/-- Shallow embedding of the idempotency macro's before hook: `key` is
the resolved idempotency key (falsy modelled as `none`), `kv` the KV
port's `get` when a kv capability is present. -/
def idempotencyBefore (key : Option String) (kv : Option (String → Option V))
    (c : ExecCtx V) : ExecCtx V :=
  match key, kv with
  | some k, some get =>
    match get ("idem:" ++ k) with
    | some existing => setMacroResult existing c
    | none => c
  | _, _ => c

/-! ### Validation (packages/core/validation.ts) and the executor's gate

`validateStep` checks the step's structure (object, name, meta, run)
and flags declared capability keys no registered macro can satisfy,
explicitly SKIPPING the four policy keys:
```
if (cap === "retry" || cap === "timeout" || cap === "circuit" || cap === "idempotency") {
  continue;
}
```
`validateMeta` additionally checks policy values (db role, negative
retry times/delayMs, negative timeout ms), but the executor invokes
only `assertValidStep` (executor.ts lines 80-84):
```
if (!step || typeof step.run !== "function") throw new Error("invalid step");
if (validate) { assertValidStep(step, macros); }
```
Errors are modelled by their `code` field (with the offending
capability appended for UNKNOWN_CAPABILITY); the human-readable
message and fuzzy suggestion strings are elided. -/

/-- The timeout policy value as validation sees it: key absent, or
present with an optional `ms` field. -/
abbrev VTimeout := Option (Option Int)

/-- The validation-relevant shape of a meta object: its key list
(Object.keys) and the policy/config values the validators read.
Numeric fields are integers so that the negative configurations the
spec speaks about are expressible. -/
structure VMeta where
  keys : List String
  dbRole : Option String := none
  retry : Option (Int × Int) := none
  timeout : VTimeout := none
  deriving Repr

/-- The validation-relevant shape of a step: whether it is an object,
its `name` (`none` models a falsy/absent/non-string name), whether
`run` is a function, and its meta. -/
structure VStep where
  isObject : Bool := true
  name : Option String := none
  hasRun : Bool := true
  meta : Option VMeta := none
  deriving Repr

/-- The four policy keys `validateStep`/`validateMeta` skip in the
unknown-capability check. -/
def policyKey (k : String) : Bool :=
  k = "retry" || k = "timeout" || k = "circuit" || k = "idempotency"

/-- The unknown-capability errors over a declared key list. -/
def unknownCapErrors (keys macroKeys : List String) : List String :=
  (keys.filter (fun k => ¬ policyKey k ∧ k ∉ macroKeys)).map
    (fun k => "UNKNOWN_CAPABILITY:" ++ k)

/-- Shallow embedding of `validateStep`: the list of error codes (valid
iff empty).  Note that the policy keys are skipped, so policy VALUES
are never inspected here. -/
def validateStep (s : VStep) (macroKeys : List String) : List String :=
  if ¬ s.isObject then ["INVALID_STEP"]
  else
    let nameErrs := if s.name = none then ["MISSING_NAME"] else []
    match s.meta with
    | none => nameErrs ++ ["MISSING_META"]
    | some m =>
      let runErrs := if ¬ s.hasRun then ["MISSING_RUN"] else []
      nameErrs ++ runErrs ++ unknownCapErrors m.keys macroKeys

/-- Shallow embedding of `validateMeta`: unknown-capability check plus
the policy-value checks (`INVALID_DB_ROLE`, `INVALID_RETRY_CONFIG` when
`times < 0 || delayMs < 0`, `INVALID_TIMEOUT_CONFIG` when
`timeout.ms && timeout.ms < 0`). -/
def validateMeta (m : VMeta) (macroKeys : List String) : List String :=
  let capErrs := unknownCapErrors m.keys macroKeys
  let dbErrs :=
    match m.dbRole with
    | some r => if r ≠ "ro" ∧ r ≠ "rw" then ["INVALID_DB_ROLE"] else []
    | none => []
  let retryErrs :=
    match m.retry with
    | some (times, delayMs) =>
      if times < 0 ∨ delayMs < 0 then ["INVALID_RETRY_CONFIG"] else []
    | none => []
  let timeoutErrs :=
    match m.timeout with
    | some (some ms) => if ms ≠ 0 ∧ ms < 0 then ["INVALID_TIMEOUT_CONFIG"] else []
    | _ => []
  capErrs ++ dbErrs ++ retryErrs ++ timeoutErrs

/-- The engine's default for the `validate` option
(`validate: defaultValidate = true` in `createEngine`). -/
def defaultValidate : Bool := true

/-- What the executor does before macro resolution and any I/O. -/
inductive EntryOutcome where
  | invalidStepError
  | validationError (codes : List String)
  | proceedsToResolve
  deriving Repr, DecidableEq

/-- Shallow embedding of the executor's entry gate (executor.ts lines
80-84): the invalid-step throw, then `assertValidStep` (which throws
iff `validateStep` reports errors) when validation is enabled, then
execution proceeds to macro resolution. -/
def runStepEntry (s : VStep) (macroKeys : List String) (validate : Bool) :
    EntryOutcome :=
  if ¬ s.isObject ∨ ¬ s.hasRun then .invalidStepError
  else if validate then
    match validateStep s macroKeys with
    | [] => .proceedsToResolve
    | errs => .validationError errs
  else .proceedsToResolve

/-! ## Theorems -/

/-- C1: the claim states that for every execution of
`bracket(acquire, use, finalizer)` in which acquire succeeds, release
is called exactly once, in particular when a supplied finalizer
rejects.  The code violates this: when the finalizer rejects, control
jumps from `await finalizer(value)` to the catch clause of the finally
block, skipping `await release()` entirely, so release is called ZERO
times.  This theorem evaluates the embedding at the failing input
(acquire succeeds, use succeeds, finalizer rejects). -/
theorem C1_finalizer_rejection_skips_release :
    (bracket (E := String) (R := Nat) (.ok ()) (.ok 42)
        (some (.error "cleanup-failed")) (.ok ())).releaseCalls = 0 ∧
    (bracket (E := String) (R := Nat) (.ok ()) (.error "use-failed")
        (some (.error "cleanup-failed")) (.ok ())).releaseCalls = 0 := by
  exact ⟨rfl, rfl⟩

/-- C2: for every lease-acquire woven with timeout.acquireMs set, if
the underlying acquire resolves only after the acquire-timeout fired
(strictly later than ms), the caller received the acquire-timeout
rejection, and the late-arriving Releasable is still released by the
wrapper, exactly once. -/
theorem C2_late_acquire_still_released (ms t : Nat) (v : V) (h : ms < t) :
    (withAcquireTimeout ms (.resolves t true v)).wrapperReleaseCalls = 1 ∧
    (withAcquireTimeout ms (.resolves t true v)).caller =
      .error "acquire-timeout" := by
  simp [withAcquireTimeout, h]

/-- Witness for C2 at acquireMs = 1 and a resolution at t = 10. -/
theorem C2_late_acquire_still_released_witness :
    (1 : Nat) < 10 ∧
    ((withAcquireTimeout 1 (.resolves 10 true (0 : Nat))).wrapperReleaseCalls = 1 ∧
     (withAcquireTimeout 1 (.resolves 10 true (0 : Nat))).caller =
       .error "acquire-timeout") :=
  ⟨by decide, C2_late_acquire_still_released 1 10 0 (by decide)⟩

/-- C3: if after the whole before loop some matched macro's before hook
has set the short-circuit result, the executor returns that value as
the final result, invoking neither step.run nor any after hook. -/
theorem C3_short_circuit_skips_run_and_after
    (befores : List (ExecCtx V → ExecCtx V)) (runVal : V)
    (afters : List (V → ExecCtx V → V × ExecCtx V)) (c0 : ExecCtx V)
    (h : hasMacroResult (beforeLoop befores c0) = true) :
    runPhases befores runVal afters c0 =
      { result := getMacroResult (beforeLoop befores c0), runCalls := 0,
        afterCalls := 0, ctx := beforeLoop befores c0 } := by
  simp [runPhases, h]

/-- Witness for C3: the idempotency macro's before hook on a KV cache
hit (kv holds 42 under idem:k) short-circuits; run would have produced
99 and the single after hook would have incremented it, but the cached
42 is returned with zero run and after invocations. -/
theorem C3_short_circuit_skips_run_and_after_witness :
    hasMacroResult (beforeLoop
        [idempotencyBefore (some "k")
          (some (fun s => if s = "idem:k" then some 42 else none))]
        {}) = true ∧
    runPhases
        [idempotencyBefore (some "k")
          (some (fun s => if s = "idem:k" then some 42 else none))]
        99 [fun v c => (v + 1, c)] {} =
      { result := some 42, runCalls := 0, afterCalls := 0,
        ctx := { skip := true, value := some 42, trace := [] } } :=
  ⟨rfl,
   C3_short_circuit_skips_run_and_after
     [idempotencyBefore (some "k")
       (some (fun s => if s = "idem:k" then some 42 else none))]
     99 [fun v c => (v + 1, c)] {} rfl⟩

/-- C6: behaviour of a circuit-wrapped call: fast-fail without invoking
the wrapped function while now < openUntil; reset openUntil to 0 on
success; set openUntil to failure-time + halfOpenAfterMs (default
30000) and rethrow on failure; and a call issued at or after the
cooldown deadline is allowed through again. -/
theorem C6_circuit_wrapping (hoa : Option Nat) (tCheck tFail t2 tFail2 : Nat)
    (st : CircuitState) (inner inner2 : Except E V) (v : V) (e : E) :
    cooldownOf none = 30000
    ∧ (tCheck < st.openUntil.getD 0 →
        circuitCall (cooldownOf hoa) tCheck tFail st inner =
          { state := st, invoked := false, warned := true,
            result := .error .circuitOpen })
    ∧ (¬ tCheck < st.openUntil.getD 0 →
        circuitCall (cooldownOf hoa) tCheck tFail st (.ok v : Except E V) =
          { state := { openUntil := some 0 }, invoked := true, warned := false,
            result := .ok v })
    ∧ (¬ tCheck < st.openUntil.getD 0 →
        circuitCall (cooldownOf hoa) tCheck tFail st (.error e : Except E V) =
          { state := { openUntil := some (tFail + cooldownOf hoa) },
            invoked := true, warned := true, result := .error (.inner e) })
    ∧ (¬ tCheck < st.openUntil.getD 0 → tFail + cooldownOf hoa ≤ t2 →
        (circuitCall (cooldownOf hoa) t2 tFail2
            ((circuitCall (cooldownOf hoa) tCheck tFail st
              (.error e : Except E V)).state)
            inner2).invoked = true) := by
  refine ⟨rfl, ?_, ?_, ?_, ?_⟩
  · intro h; simp [circuitCall, h]
  · intro h; simp [circuitCall, h]
  · intro h; simp [circuitCall, h]
  · intro h h2
    have hs : (circuitCall (cooldownOf hoa) tCheck tFail st
        (.error e : Except E V)).state =
        { openUntil := some (tFail + cooldownOf hoa) } := by
      simp [circuitCall, h]
    rw [hs]
    have h3 : ¬ t2 < tFail + cooldownOf hoa := not_lt.mpr h2
    cases inner2 <;> simp [circuitCall, h3]

/-- Witness for C6: with halfOpenAfterMs = 5000, a failure at t = 1000
trips the circuit until 6000; a call at t = 6000 (the cooldown elapsed)
is allowed through again. -/
theorem C6_circuit_wrapping_witness :
    (¬ (1000 : Nat) < (({ openUntil := some 0 } : CircuitState).openUntil.getD 0))
    ∧ circuitCall (cooldownOf (some 5000)) 1000 1000 { openUntil := some 0 }
        (.error "boom" : Except String Nat) =
      { state := { openUntil := some 6000 }, invoked := true, warned := true,
        result := .error (.inner "boom") }
    ∧ (circuitCall (cooldownOf (some 5000)) 6000 6000
        ((circuitCall (cooldownOf (some 5000)) 1000 1000 { openUntil := some 0 }
          (.error "boom" : Except String Nat)).state)
        (.ok 7 : Except String Nat)).invoked = true :=
  ⟨by decide,
   (C6_circuit_wrapping (some 5000) 1000 1000 6000 6000 { openUntil := some 0 }
      (.error "boom") (.ok 7) 7 "boom").2.2.2.1 (by decide),
   (C6_circuit_wrapping (some 5000) 1000 1000 6000 6000 { openUntil := some 0 }
      (.error "boom") (.ok 7) 7 "boom").2.2.2.2 (by decide) (by decide)⟩

/-- C8 counterexample: without a custom circuit provider the state is
NOT process-wide.  A failure during a first execution (circuit "api",
halfOpenAfterMs 5000, failing at t = 1000) leaves that execution's
state open until 6000, but a second weave invocation at t = 2000 —
within the cooldown window — obtains a FRESH `openUntil: 0` state from
`getCircuitState` and therefore invokes the underlying function instead
of fast-failing with circuit-open. -/
theorem C8_counterexample :
    ((circuitCall (cooldownOf (some 5000)) 1000 1000
        (getCircuitState "http" (some "api") none)
        (.error "boom" : Except String Nat)).state.openUntil = some 6000)
    ∧ (2000 : Nat) < 6000
    ∧ ((circuitCall (cooldownOf (some 5000)) 2000 2000
        (getCircuitState "http" (some "api") none)
        (.ok 7 : Except String Nat)).invoked = true) := by
  refine ⟨rfl, by decide, rfl⟩

/-- Helper: the before loop over interpreted hook behaviours sets the
skip flag iff it was already set or some hook set a result. -/
theorem beforeLoop_skip (hs : List (BeforeHook V)) (c : ExecCtx V) :
    (beforeLoop (hs.map applyBefore) c).skip = (c.skip || (lastSet hs).isSome) := by
  induction hs generalizing c with
  | nil => simp [beforeLoop, lastSet]
  | cons h t ih =>
    rw [List.map_cons]
    show (beforeLoop (t.map applyBefore) (applyBefore h c)).skip = _
    rw [ih]
    cases h <;> cases hls : lastSet t <;>
      simp [applyBefore, setMacroResult, lastSet, hls]

/-- Helper: after the before loop the sentinel value is the one set by
the LAST setter hook (the loop has no early exit, so later setters
overwrite earlier ones). -/
theorem beforeLoop_value (hs : List (BeforeHook V)) (c : ExecCtx V) :
    (beforeLoop (hs.map applyBefore) c).value = ((lastSet hs).or c.value) := by
  induction hs generalizing c with
  | nil => simp [beforeLoop, lastSet, Option.or]
  | cons h t ih =>
    rw [List.map_cons]
    show (beforeLoop (t.map applyBefore) (applyBefore h c)).value = _
    rw [ih]
    cases h <;> cases hls : lastSet t <;>
      simp [applyBefore, setMacroResult, lastSet, hls, Option.or]

/-- Helper: every hook of the before loop runs: the probes append their
identifiers to the trace in registration order, whether or not some
earlier hook already set the short-circuit result. -/
theorem beforeLoop_trace (hs : List (BeforeHook V)) (c : ExecCtx V) :
    (beforeLoop (hs.map applyBefore) c).trace = c.trace ++ probeIds hs := by
  induction hs generalizing c with
  | nil => simp [beforeLoop, probeIds]
  | cons h t ih =>
    rw [List.map_cons]
    show (beforeLoop (t.map applyBefore) (applyBefore h c)).trace = _
    rw [ih]
    cases h <;> simp [applyBefore, setMacroResult, probeIds]

/-- C10: even after one before hook sets the short-circuit result, the
executor still invokes every remaining before hook in registration
order (the probes after a setter still record their effects); the flag
is checked only once, after the whole loop, so the value set by the
LAST setter is the one returned, with run not invoked. -/
theorem C10_before_loop_runs_all_hooks
    (hs : List (BeforeHook V)) (runVal : V)
    (afters : List (V → ExecCtx V → V × ExecCtx V)) (c0 : ExecCtx V)
    (v : V) (hset : lastSet hs = some v) :
    (beforeLoop (hs.map applyBefore) c0).trace = c0.trace ++ probeIds hs
    ∧ runPhases (hs.map applyBefore) runVal afters c0 =
        { result := some v, runCalls := 0, afterCalls := 0,
          ctx := beforeLoop (hs.map applyBefore) c0 } := by
  refine ⟨beforeLoop_trace hs c0, ?_⟩
  have hskip : hasMacroResult (beforeLoop (hs.map applyBefore) c0) = true := by
    simp [hasMacroResult, beforeLoop_skip, hset]
  have hval : getMacroResult (beforeLoop (hs.map applyBefore) c0) = some v := by
    simp [getMacroResult, beforeLoop_value, hset, Option.or]
  simp [runPhases, hskip, hval]

/-- Witness for C10: two setters with probes in between; both probes
run (trace [7, 8]) and the SECOND setter's value 2 is returned, not the
first setter's 1; run is never invoked. -/
theorem C10_before_loop_runs_all_hooks_witness :
    lastSet [BeforeHook.setResult 1, .probe 7, .setResult 2, .probe 8] = some 2
    ∧ (beforeLoop
        ([BeforeHook.setResult 1, .probe 7, .setResult 2, .probe 8].map applyBefore)
        ({} : ExecCtx Nat)).trace = [7, 8]
    ∧ runPhases
        ([BeforeHook.setResult 1, .probe 7, .setResult 2, .probe 8].map applyBefore)
        99 [] ({} : ExecCtx Nat) =
      { result := some 2, runCalls := 0, afterCalls := 0,
        ctx := beforeLoop
          ([BeforeHook.setResult 1, .probe 7, .setResult 2, .probe 8].map applyBefore)
          ({} : ExecCtx Nat) } :=
  ⟨rfl,
   (C10_before_loop_runs_all_hooks
      [BeforeHook.setResult 1, .probe 7, .setResult 2, .probe 8]
      99 [] {} 2 rfl).1,
   (C10_before_loop_runs_all_hooks
      [BeforeHook.setResult 1, .probe 7, .setResult 2, .probe 8]
      99 [] {} 2 rfl).2⟩

/-- Helper: a lookup in the concatenation of two assignment lists takes
the later list's binding when present (the later-assignment-wins law of
Object.assign and object spread). -/
theorem objGet_append (a b : Obj) (k : String) :
    objGet (a ++ b) k = (objGet b k).or (objGet a k) := by
  unfold objGet
  rw [List.reverse_append, List.find?_append]
  cases List.find? (fun kv => kv.1 = k) b.reverse <;> simp [Option.or]

/-- Helper: folding one more resolved partial is one more merge step. -/
theorem mergeCaps_append (ps : List (Option ResolvedCaps)) (x : Option ResolvedCaps) :
    mergeCaps (ps ++ [x]) = mergeOne (mergeCaps ps) x := by
  simp [mergeCaps, List.foldl_append]

/-- Helper: merging a partial with a lease object concatenates it after
the accumulated lease assignments. -/
theorem mergeOne_lease_some (acc : CapsAcc) (lp rest : Obj) :
    (mergeOne acc (some ⟨some lp, rest⟩)).lease =
      some ((acc.lease.getD []) ++ lp) := by
  simp only [mergeOne]
  split <;> rfl

/-- Helper: merging a partial appends its non-lease keys to the
accumulated object (when it has any). -/
theorem mergeOne_rest (acc : CapsAcc) (lpOpt : Option Obj) (rest : Obj) :
    (mergeOne acc (some ⟨lpOpt, rest⟩)).rest =
      if rest ≠ [] then acc.rest ++ rest else acc.rest := by
  cases lpOpt <;> by_cases hr : rest = [] <;> simp [mergeOne, hr]

/-- Helper: the merge never loses the bracket helper installed at the
start. -/
theorem mergeCaps_hasBracket (ps : List (Option ResolvedCaps)) :
    (mergeCaps ps).hasBracket = true := by
  suffices h : ∀ acc : CapsAcc,
      (ps.foldl mergeOne acc).hasBracket = acc.hasBracket by
    exact h { hasBracket := true, lease := none, rest := [] }
  induction ps with
  | nil => intro acc; rfl
  | cons p t ih =>
    intro acc
    show (t.foldl mergeOne (mergeOne acc p)).hasBracket = acc.hasBracket
    rw [ih]
    cases p with
    | none => rfl
    | some p =>
      obtain ⟨lpOpt, rest⟩ := p
      cases lpOpt <;> simp only [mergeOne] <;> split <;> rfl

/-- C5: the capability merge starts from the bracket-only accumulator
and folds the resolved partials in original macro-list order: the lease
sub-object is deep-merged key-by-key with the later macro winning per
key (and earlier keys surviving), all other top-level keys are merged
with the later macro winning, and the result is independent of the
settlement schedule of the concurrent resolve promises (Promise.all
stores each result at its promise's index). -/
theorem C5_capability_merge (ps : List (Option ResolvedCaps)) (t1 t2 : List Nat)
    (lp rest : Obj) (k : String) (v : Nat) (lpOpt : Option Obj) :
    (mergeCaps (promiseAll ps t1) = mergeCaps (promiseAll ps t2))
    ∧ ((mergeCaps ps).hasBracket = true)
    ∧ (objGet lp k = some v →
        leaseGet (mergeCaps (ps ++ [some ⟨some lp, rest⟩])) k = some v)
    ∧ (objGet lp k = none →
        leaseGet (mergeCaps (ps ++ [some ⟨some lp, rest⟩])) k =
          leaseGet (mergeCaps ps) k)
    ∧ (objGet rest k = some v →
        objGet (mergeCaps (ps ++ [some ⟨lpOpt, rest⟩])).rest k = some v) := by
  refine ⟨rfl, mergeCaps_hasBracket ps, ?_, ?_, ?_⟩
  · intro hv
    rw [mergeCaps_append]
    simp [leaseGet, mergeOne_lease_some, objGet_append, hv, Option.or]
  · intro hv
    rw [mergeCaps_append]
    simp [leaseGet, mergeOne_lease_some, objGet_append, hv, Option.or]
  · intro hv
    have hne : rest ≠ [] := by
      intro h
      rw [h] at hv
      simp [objGet] at hv
    rw [mergeCaps_append, mergeOne_rest]
    simp [hne, objGet_append, hv, Option.or]

/-- Witness for C5: one macro contributes lease.db, another
lease.tempDir; the merged capability set exposes both keys under lease,
independently of the two settle schedules. -/
theorem C5_capability_merge_witness :
    objGet [("tempDir", 2)] "tempDir" = some 2
    ∧ leaseGet (mergeCaps [some ⟨some [("db", 1)], []⟩,
        some ⟨some [("tempDir", 2)], []⟩]) "tempDir" = some 2
    ∧ objGet [("tempDir", 2)] "db" = none
    ∧ leaseGet (mergeCaps [some ⟨some [("db", 1)], []⟩,
        some ⟨some [("tempDir", 2)], []⟩]) "db" = some 1
    ∧ mergeCaps (promiseAll [some ⟨some [("db", 1)], []⟩,
        some ⟨some [("tempDir", 2)], []⟩] [5, 1]) =
      mergeCaps (promiseAll [some ⟨some [("db", 1)], []⟩,
        some ⟨some [("tempDir", 2)], []⟩] [1, 5]) :=
  ⟨rfl,
   (C5_capability_merge [some ⟨some [("db", 1)], []⟩] [] []
      [("tempDir", 2)] [] "tempDir" 2 none).2.2.1 rfl,
   rfl,
   ((C5_capability_merge [some ⟨some [("db", 1)], []⟩] [] []
      [("tempDir", 2)] [] "db" 1 none).2.2.2.1 rfl).trans rfl,
   (C5_capability_merge [some ⟨some [("db", 1)], []⟩,
      some ⟨some [("tempDir", 2)], []⟩] [5, 1] [1, 5]
      [] [] "db" 1 none).1⟩

/-- Helper: in the circuit→log→retry nest, the circuit guard executes
once per attempt. -/
theorem clrGo_guard_eq_attempts (cooldown : Nat) (tAt : Nat → Nat × Nat)
    (beh : Nat → Except E V) (fuel n : Nat) (lastErr : Option (CircuitErr E))
    (st : CircuitState) (acc : ClrRun E V)
    (h : acc.guardChecks = acc.attempts) :
    (clrGo cooldown tAt beh fuel n lastErr st acc).guardChecks =
      (clrGo cooldown tAt beh fuel n lastErr st acc).attempts := by
  induction fuel generalizing n lastErr st acc with
  | zero => simpa [clrGo] using h
  | succ fuel ih =>
    simp only [clrGo]
    split
    · simp [h]
    · exact ih _ _ _ _ (by simp [h])

/-- Helper: in the circuit→log→retry nest, the log wrapper emits one
entry per attempt. -/
theorem clrGo_log_eq_attempts (cooldown : Nat) (tAt : Nat → Nat × Nat)
    (beh : Nat → Except E V) (fuel n : Nat) (lastErr : Option (CircuitErr E))
    (st : CircuitState) (acc : ClrRun E V)
    (h : acc.logEntries = acc.attempts) :
    (clrGo cooldown tAt beh fuel n lastErr st acc).logEntries =
      (clrGo cooldown tAt beh fuel n lastErr st acc).attempts := by
  induction fuel generalizing n lastErr st acc with
  | zero => simpa [clrGo] using h
  | succ fuel ih =>
    simp only [clrGo]
    split
    · simp [h]
    · exact ih _ _ _ _ (by simp [h])

/-- Helper: the retry loop makes at most `fuel` further attempts. -/
theorem clrGo_attempts_le (cooldown : Nat) (tAt : Nat → Nat × Nat)
    (beh : Nat → Except E V) (fuel n : Nat) (lastErr : Option (CircuitErr E))
    (st : CircuitState) (acc : ClrRun E V) :
    (clrGo cooldown tAt beh fuel n lastErr st acc).attempts ≤
      acc.attempts + fuel := by
  induction fuel generalizing n lastErr st acc with
  | zero => simp [clrGo]
  | succ fuel ih =>
    simp only [clrGo]
    split
    · exact Nat.add_le_add_left (Nat.succ_le_succ (Nat.zero_le fuel)) acc.attempts
    · exact le_trans (ih _ _ _ _)
        (Nat.le_of_eq (Nat.add_right_comm acc.attempts 1 fuel))

/-- C4: for every effect port among http, kv, db, queue present in the
capability set, weave builds the decorator nest in the fixed order
circuit → log → retry → timeout (circuit innermost, timeout outermost,
spanning the whole retry loop); consequently, in the semantics of the
circuit→log→retry nest, every retry attempt executes the circuit guard
exactly once and produces exactly one log entry, with at most
times + 1 attempts. -/
theorem C4_weave_policy_order (m : WeavePolicies) (caps : EffectCaps)
    (p q r s : PortWrap)
    (hc : m.circuit = true) (hl : caps.hasLog = true) (hr : m.retry = true)
    (ht : m.timeoutMs.getD 0 ≠ 0) :
    ((caps.http = some p → (weaveEffects m caps).http =
        some (.timeoutW (.retryW (.logW (.circuitW p)))))
     ∧ (caps.kv = some q → (weaveEffects m caps).kv =
        some (.timeoutW (.retryW (.logW (.circuitW q)))))
     ∧ (caps.db = some r → (weaveEffects m caps).db =
        some (.timeoutW (.retryW (.logW (.circuitW r)))))
     ∧ (caps.queue = some s → (weaveEffects m caps).queue =
        some (.timeoutW (.retryW (.logW (.circuitW s))))))
    ∧ (∀ (times cooldown : Nat) (tAt : Nat → Nat × Nat)
        (beh : Nat → Except E V) (st : CircuitState),
        (clrRun times cooldown tAt beh st).guardChecks =
          (clrRun times cooldown tAt beh st).attempts
        ∧ (clrRun times cooldown tAt beh st).logEntries =
          (clrRun times cooldown tAt beh st).attempts
        ∧ (clrRun times cooldown tAt beh st).attempts ≤ times + 1) := by
  have hwrap : ∀ x : PortWrap, wrapPort m caps.hasLog x =
      .timeoutW (.retryW (.logW (.circuitW x))) := by
    intro x
    simp [wrapPort, hc, hl, hr, ht]
  refine ⟨⟨?_, ?_, ?_, ?_⟩, ?_⟩
  · intro h; simp [weaveEffects, h, hwrap]
  · intro h; simp [weaveEffects, h, hwrap]
  · intro h; simp [weaveEffects, h, hwrap]
  · intro h; simp [weaveEffects, h, hwrap]
  · intro times cooldown tAt beh st
    refine ⟨clrGo_guard_eq_attempts _ _ _ _ _ _ _ _ rfl,
            clrGo_log_eq_attempts _ _ _ _ _ _ _ _ rfl, ?_⟩
    simpa using clrGo_attempts_le cooldown tAt beh (times + 1) 0 none st
      { result := .error none, attempts := 0, guardChecks := 0,
        logEntries := 0, innerCalls := 0, state := st }

/-- Witness for C4: with all four policies configured, the http port is
wrapped as timeout(retry(log(circuit(base)))), and a two-attempt run of
the nest performs two guard checks and two log entries. -/
theorem C4_weave_policy_order_witness :
    (({ circuit := true, retry := true, timeoutMs := some 3000 } :
        WeavePolicies).circuit = true)
    ∧ (weaveEffects { circuit := true, retry := true, timeoutMs := some 3000 }
        { http := some .base, kv := some .base, db := some .base,
          queue := some .base, hasLog := true }).http =
      some (.timeoutW (.retryW (.logW (.circuitW .base))))
    ∧ (clrRun (E := String) (V := Nat) 1 5000 (fun _ => (0, 0))
        (fun _ => .error "boom") { openUntil := some 0 }).guardChecks =
      (clrRun (E := String) (V := Nat) 1 5000 (fun _ => (0, 0))
        (fun _ => .error "boom") { openUntil := some 0 }).attempts
    ∧ (clrRun (E := String) (V := Nat) 1 5000 (fun _ => (0, 0))
        (fun _ => .error "boom") { openUntil := some 0 }).attempts ≤ 2 :=
  ⟨rfl,
   (C4_weave_policy_order (E := String) (V := Nat)
      { circuit := true, retry := true, timeoutMs := some 3000 }
      { http := some .base, kv := some .base, db := some .base,
        queue := some .base, hasLog := true }
      .base .base .base .base rfl rfl rfl (by decide)).1.1 rfl,
   ((C4_weave_policy_order (E := String) (V := Nat)
      { circuit := true, retry := true, timeoutMs := some 3000 }
      { http := some .base, kv := some .base, db := some .base,
        queue := some .base, hasLog := true }
      .base .base .base .base rfl rfl rfl (by decide)).2 1 5000
      (fun _ => (0, 0)) (fun _ => .error "boom") { openUntil := some 0 }).1,
   ((C4_weave_policy_order (E := String) (V := Nat)
      { circuit := true, retry := true, timeoutMs := some 3000 }
      { http := some .base, kv := some .base, db := some .base,
        queue := some .base, hasLog := true }
      .base .base .base .base rfl rfl rfl (by decide)).2 1 5000
      (fun _ => (0, 0)) (fun _ => .error "boom") { openUntil := some 0 }).2.2⟩

/-- C9 counterexample: a structurally well-formed step whose meta
carries an invalid policy configuration (retry.times = -1) passes the
validation the executor actually runs (assertValidStep → validateStep,
which SKIPS the policy keys) and execution proceeds to macro
resolution — it does not fail fast.  The INVALID_RETRY_CONFIG error is
produced only by validateMeta, which the executor never invokes. -/
theorem C9_counterexample :
    runStepEntry
      { isObject := true, name := some "negative-retry", hasRun := true,
        meta := some { keys := ["retry"], retry := some (-1, 0) } }
      [] true = .proceedsToResolve
    ∧ validateMeta { keys := ["retry"], retry := some (-1, 0) } [] =
        ["INVALID_RETRY_CONFIG"] :=
  ⟨rfl, rfl⟩

/-- C9 (amended): executing a step whose meta declares only policy keys
or macro-satisfiable capability keys proceeds past validation to macro
resolution regardless of invalid policy values (negative retry
times/delayMs, negative timeout), because the executor runs only
validateStep, which skips policy keys; those values are flagged (as
INVALID_RETRY_CONFIG / INVALID_TIMEOUT_CONFIG) only by the separate
validateMeta, which execution never calls. -/
theorem C9_policy_values_not_checked_at_execution
    (s : VStep) (m : VMeta) (macroKeys : List String) (validate : Bool)
    (hobj : s.isObject = true) (hname : s.name.isSome)
    (hrun : s.hasRun = true) (hmeta : s.meta = some m)
    (hkeys : ∀ k ∈ m.keys, policyKey k = true ∨ k ∈ macroKeys) :
    runStepEntry s macroKeys validate = .proceedsToResolve
    ∧ (∀ times delayMs : Int, m.retry = some (times, delayMs) →
        times < 0 ∨ delayMs < 0 →
        "INVALID_RETRY_CONFIG" ∈ validateMeta m macroKeys)
    ∧ (∀ ms : Int, m.timeout = some (some ms) → ms < 0 →
        "INVALID_TIMEOUT_CONFIG" ∈ validateMeta m macroKeys) := by
  have hcap : unknownCapErrors m.keys macroKeys = [] := by
    simp only [unknownCapErrors, List.map_eq_nil_iff, List.filter_eq_nil_iff]
    intro k hk
    rcases hkeys k hk with h | h <;> simp [h]
  refine ⟨?_, ?_, ?_⟩
  · obtain ⟨nm, hnm⟩ := Option.isSome_iff_exists.mp hname
    have hvs : validateStep s macroKeys = [] := by
      simp [validateStep, hobj, hmeta, hrun, hnm, hcap]
    cases validate <;> simp [runStepEntry, hobj, hrun, hvs]
  · intro times delayMs hret hneg
    have : (if times < 0 ∨ delayMs < 0 then ["INVALID_RETRY_CONFIG"]
        else []) = ["INVALID_RETRY_CONFIG"] := if_pos hneg
    simp [validateMeta, hcap, hret, this]
  · intro ms ht hneg
    have hms : ms ≠ 0 ∧ ms < 0 := ⟨ne_of_lt hneg, hneg⟩
    simp [validateMeta, hcap, ht, hms.1, hms.2]

/-- Witness for C9 (amended): retry times -1 with delayMs 5 and timeout
ms -7 proceed to resolution but are both flagged by validateMeta. -/
theorem C9_policy_values_not_checked_at_execution_witness :
    (∀ k ∈ (["retry", "timeout", "kv"] : List String),
      policyKey k = true ∨ k ∈ (["kv"] : List String))
    ∧ runStepEntry
        { isObject := true, name := some "s", hasRun := true,
          meta := some { keys := ["retry", "timeout", "kv"],
                         retry := some (-1, 5),
                         timeout := some (some (-7)) } }
        ["kv"] true = .proceedsToResolve
    ∧ "INVALID_RETRY_CONFIG" ∈ validateMeta
        { keys := ["retry", "timeout", "kv"], retry := some (-1, 5),
          timeout := some (some (-7)) } ["kv"]
    ∧ "INVALID_TIMEOUT_CONFIG" ∈ validateMeta
        { keys := ["retry", "timeout", "kv"], retry := some (-1, 5),
          timeout := some (some (-7)) } ["kv"] :=
  ⟨by decide,
   (C9_policy_values_not_checked_at_execution
      { isObject := true, name := some "s", hasRun := true,
        meta := some { keys := ["retry", "timeout", "kv"],
                       retry := some (-1, 5),
                       timeout := some (some (-7)) } }
      { keys := ["retry", "timeout", "kv"], retry := some (-1, 5),
        timeout := some (some (-7)) }
      ["kv"] true rfl rfl rfl rfl (by decide)).1,
   (C9_policy_values_not_checked_at_execution
      { isObject := true, name := some "s", hasRun := true,
        meta := some { keys := ["retry", "timeout", "kv"],
                       retry := some (-1, 5),
                       timeout := some (some (-7)) } }
      { keys := ["retry", "timeout", "kv"], retry := some (-1, 5),
        timeout := some (some (-7)) }
      ["kv"] true rfl rfl rfl rfl (by decide)).2.1 (-1) 5 rfl
      (Or.inl (by norm_num)),
   (C9_policy_values_not_checked_at_execution
      { isObject := true, name := some "s", hasRun := true,
        meta := some { keys := ["retry", "timeout", "kv"],
                       retry := some (-1, 5),
                       timeout := some (some (-7)) } }
      { keys := ["retry", "timeout", "kv"], retry := some (-1, 5),
        timeout := some (some (-7)) }
      ["kv"] true rfl rfl rfl rfl (by decide)).2.2 (-7) rfl (by norm_num)⟩

/-- Helper: the jittered delay Math.round(delay * (0.5 + r)) lies in
the closed interval [0.5 * delay, 1.5 * delay] for r in [0, 1). -/
theorem withJitter_bounds (d : Nat) (r : ℚ) (h0 : 0 ≤ r) (h1 : r < 1) :
    (d : ℚ) / 2 ≤ (withJitter d r : ℚ) ∧ (withJitter d r : ℚ) ≤ 3 * d / 2 := by
  have hd0 : (0 : ℚ) ≤ (d : ℚ) := by positivity
  have hx : withJitter d r = ⌊(d : ℚ) * (1 / 2 + r) + 1 / 2⌋ := by
    rw [withJitter, round_eq]
  constructor
  · have hlow : (d : ℚ) / 2 ≤ (d : ℚ) * (1 / 2 + r) := by nlinarith
    have hfl : (d : ℚ) * (1 / 2 + r) + 1 / 2 - 1 <
        ((⌊(d : ℚ) * (1 / 2 + r) + 1 / 2⌋ : ℤ) : ℚ) :=
      Int.sub_one_lt_floor _
    have h2 : ((d : ℤ) : ℚ) - 1 < ((2 * ⌊(d : ℚ) * (1 / 2 + r) + 1 / 2⌋ : ℤ) : ℚ) := by
      push_cast
      linarith
    have h3 : (d : ℤ) - 1 < 2 * ⌊(d : ℚ) * (1 / 2 + r) + 1 / 2⌋ := by
      exact_mod_cast h2
    have h4 : (d : ℤ) ≤ 2 * ⌊(d : ℚ) * (1 / 2 + r) + 1 / 2⌋ := by omega
    rw [hx]
    have h5 : ((d : ℤ) : ℚ) ≤ ((2 * ⌊(d : ℚ) * (1 / 2 + r) + 1 / 2⌋ : ℤ) : ℚ) := by
      exact_mod_cast h4
    push_cast at h5 ⊢
    linarith
  · rcases Nat.eq_zero_or_pos d with hd | hd
    · subst hd
      norm_num [withJitter, round_eq]
    · have hdq : (0 : ℚ) < (d : ℚ) := by exact_mod_cast hd
      have hup : (d : ℚ) * (1 / 2 + r) < 3 * d / 2 := by nlinarith
      have hfl : ((⌊(d : ℚ) * (1 / 2 + r) + 1 / 2⌋ : ℤ) : ℚ) ≤
          (d : ℚ) * (1 / 2 + r) + 1 / 2 :=
        Int.floor_le _
      have h2 : ((2 * ⌊(d : ℚ) * (1 / 2 + r) + 1 / 2⌋ : ℤ) : ℚ) <
          ((3 * (d : ℤ) + 1 : ℤ) : ℚ) := by
        push_cast
        linarith
      have h3 : 2 * ⌊(d : ℚ) * (1 / 2 + r) + 1 / 2⌋ < 3 * (d : ℤ) + 1 := by
        exact_mod_cast h2
      have h4 : 2 * ⌊(d : ℚ) * (1 / 2 + r) + 1 / 2⌋ ≤ 3 * (d : ℤ) := by omega
      rw [hx]
      have h5 : ((2 * ⌊(d : ℚ) * (1 / 2 + r) + 1 / 2⌋ : ℤ) : ℚ) ≤
          ((3 * (d : ℤ) : ℤ) : ℚ) := by
        exact_mod_cast h4
      push_cast at h5 ⊢
      linarith

/-- Helper: the retry loop invokes the underlying call at most `fuel`
more times. -/
theorem retryGo_calls_le (d : Nat) (j : Bool) (rand : Nat → ℚ)
    (beh : Nat → Except E V) (fuel n : Nat) (lastErr : Option E)
    (sleeps : List ℚ) :
    (retryGo d j rand beh fuel n lastErr sleeps).calls ≤ n + fuel := by
  induction fuel generalizing n lastErr sleeps with
  | zero => simp [retryGo]
  | succ fuel ih =>
    simp only [retryGo]
    split
    · exact Nat.add_le_add_left (Nat.succ_le_succ (Nat.zero_le fuel)) n
    · exact le_trans (ih _ _ _) (Nat.le_of_eq (Nat.add_right_comm n 1 fuel))

/-- Helper: every recorded sleep is either inherited from the
accumulator or is the per-attempt delay (jittered or plain). -/
theorem retryGo_sleeps_mem (d : Nat) (j : Bool) (rand : Nat → ℚ)
    (beh : Nat → Except E V) (fuel n : Nat) (lastErr : Option E)
    (sleeps : List ℚ) :
    ∀ x ∈ (retryGo d j rand beh fuel n lastErr sleeps).sleeps,
      x ∈ sleeps ∨ ∃ k, x = (if j then (withJitter d (rand k) : ℚ) else (d : ℚ)) := by
  induction fuel generalizing n lastErr sleeps with
  | zero => intro x hx; exact Or.inl (by simpa [retryGo] using hx)
  | succ fuel ih =>
    intro x hx
    have hunfold : retryGo d j rand beh (fuel + 1) n lastErr sleeps =
        match beh n with
        | .ok v => { result := .ok v, calls := n + 1, sleeps := sleeps }
        | .error e => retryGo d j rand beh fuel (n + 1) (some e)
            (sleeps ++ [if j then (withJitter d (rand n) : ℚ) else (d : ℚ)]) := rfl
    rw [hunfold] at hx
    rcases hb : beh n with e | v
    · rw [hb] at hx
      rcases ih (n + 1) (some e) _ x hx with h | h
      · rcases List.mem_append.mp h with h2 | h2
        · exact Or.inl h2
        · exact Or.inr ⟨n, by simpa using h2⟩
      · exact Or.inr h
    · rw [hb] at hx
      exact Or.inl (by simpa using hx)

/-- Helper: when every attempt up to the fuel budget fails, the loop
makes exactly fuel + 1 invocations, sleeps once after every failure
with the per-attempt delay, and finally throws the error of the LAST
attempt. -/
theorem retryGo_allFail (d : Nat) (j : Bool) (rand : Nat → ℚ)
    (beh : Nat → Except E V) (eF : Nat → E) (fuel n : Nat)
    (lastErr : Option E) (sleeps : List ℚ)
    (hf : ∀ k, n ≤ k → k < n + fuel + 1 → beh k = .error (eF k)) :
    retryGo d j rand beh (fuel + 1) n lastErr sleeps =
      { result := .error (some (eF (n + fuel))),
        calls := n + fuel + 1,
        sleeps := sleeps ++ (List.range' n (fuel + 1)).map
          (fun k => if j then (withJitter d (rand k) : ℚ) else (d : ℚ)) } := by
  induction fuel generalizing n lastErr sleeps with
  | zero =>
    have hb := hf n (le_refl n) (by omega)
    simp [retryGo, hb]
  | succ fuel ih =>
    have hb := hf n (le_refl n) (by omega)
    have ih2 := ih (n + 1) (some (eF n))
      (sleeps ++ [if j then (withJitter d (rand n) : ℚ) else (d : ℚ)])
      (fun k hk1 hk2 => hf k (by omega) (by omega))
    have hstep : retryGo d j rand beh (fuel + 1 + 1) n lastErr sleeps =
        match beh n with
        | .ok v => { result := .ok v, calls := n + 1, sleeps := sleeps }
        | .error e => retryGo d j rand beh (fuel + 1) (n + 1) (some e)
            (sleeps ++ [if j then (withJitter d (rand n) : ℚ) else (d : ℚ)]) := rfl
    rw [hstep, hb]
    show retryGo d j rand beh (fuel + 1) (n + 1) (some (eF n))
        (sleeps ++ [if j then (withJitter d (rand n) : ℚ) else (d : ℚ)]) = _
    rw [ih2]
    have hidx : n + 1 + fuel = n + (fuel + 1) := by omega
    rw [hidx]
    have hlist : (sleeps ++ [if j then (withJitter d (rand n) : ℚ) else (d : ℚ)])
        ++ (List.range' (n + 1) (fuel + 1)).map
          (fun k => if j then (withJitter d (rand k) : ℚ) else (d : ℚ)) =
        sleeps ++ (List.range' n (fuel + 1 + 1)).map
          (fun k => if j then (withJitter d (rand k) : ℚ) else (d : ℚ)) := by
      simp [List.range'_succ]
    rw [hlist]

/-- C7 counterexample: the claim says the jittered delay equals
0.5 × delayMs when the random source yields 0; with delayMs = 1 the
recorded delay is Math.round(1 × 0.5) = 1, not 0.5. -/
theorem C7_counterexample :
    (wrapRetry 0 1 true (fun _ => 0)
        (fun _ => (.error "boom" : Except String Nat))).sleeps = [(1 : ℚ)]
    ∧ ¬ ((1 : ℚ) = (1 : ℚ) * (1 / 2)) := by
  constructor
  · show (retryGo 1 true (fun _ => 0)
        (fun _ => (.error "boom" : Except String Nat)) 1 0 none []).sleeps = [(1 : ℚ)]
    have h1 : withJitter 1 0 = 1 := by
      rw [withJitter, round_eq]
      norm_num
    simp [retryGo, h1]
  · norm_num

/-- C7 (amended): the retry wrapper attempts the call at most times + 1
total times; between attempts it waits delayMs, or with jitter the
rounded delay Math.round(delayMs × (0.5 + r)), which lies in
[0.5 × delayMs, 1.5 × delayMs] and equals round(0.5 × delayMs) — not
exactly 0.5 × delayMs — when the random source yields 0; after all
attempts fail it throws the error from the last attempt. -/
theorem C7_retry_behavior (times delayMs : Nat) (jitter : Bool)
    (rand : Nat → ℚ) (beh : Nat → Except E V) (eF : Nat → E)
    (hr : ∀ n, 0 ≤ rand n ∧ rand n < 1) :
    (wrapRetry times delayMs jitter rand beh).calls ≤ times + 1
    ∧ withJitter delayMs 0 = round ((delayMs : ℚ) / 2)
    ∧ (∀ x ∈ (wrapRetry times delayMs jitter rand beh).sleeps,
        (delayMs : ℚ) / 2 ≤ x ∧ x ≤ 3 * delayMs / 2)
    ∧ ((∀ k, k ≤ times → beh k = .error (eF k)) →
        wrapRetry times delayMs jitter rand beh =
          { result := .error (some (eF times)), calls := times + 1,
            sleeps := (List.range (times + 1)).map
              (fun k => if jitter then (withJitter delayMs (rand k) : ℚ)
                        else (delayMs : ℚ)) }) := by
  refine ⟨?_, ?_, ?_, ?_⟩
  · simpa using retryGo_calls_le delayMs jitter rand beh (times + 1) 0 none []
  · rw [withJitter]
    congr 1
    ring
  · intro x hx
    rcases retryGo_sleeps_mem delayMs jitter rand beh (times + 1) 0 none [] x hx with
      h | ⟨k, hk⟩
    · simp at h
    · rcases hjit : jitter with _ | _
      · rw [hjit] at hk
        simp only [if_neg Bool.false_ne_true] at hk
        subst hk
        have hd0 : (0 : ℚ) ≤ (delayMs : ℚ) := by positivity
        constructor <;> linarith
      · rw [hjit] at hk
        simp only [if_pos rfl] at hk
        subst hk
        exact withJitter_bounds delayMs (rand k) (hr k).1 (hr k).2
  · intro hfail
    have h := retryGo_allFail delayMs jitter rand beh eF times 0 none []
      (fun k hk1 hk2 => hfail k (by omega))
    rw [wrapRetry, h]
    simp [List.range_eq_range']

/-- Witness for C7 (amended): times = 1, delayMs = 10, jitter on, the
random source pinned to 0, every attempt failing: two invocations, two
recorded delays of 5 ms each (the jittered minimum for an even
delayMs), and the last error thrown. -/
theorem C7_retry_behavior_witness :
    (∀ n : Nat, (0 : ℚ) ≤ (fun _ => (0 : ℚ)) n ∧ (fun _ => (0 : ℚ)) n < 1)
    ∧ (wrapRetry 1 10 true (fun _ => 0)
        (fun _ => (.error "boom" : Except String Nat))).calls ≤ 2
    ∧ wrapRetry 1 10 true (fun _ => 0)
        (fun _ => (.error "boom" : Except String Nat)) =
      { result := .error (some "boom"), calls := 2, sleeps := [(5 : ℚ), 5] } := by
  refine ⟨fun n => ⟨le_refl 0, by norm_num⟩, ?_, ?_⟩
  · exact (C7_retry_behavior 1 10 true (fun _ => 0)
      (fun _ => (.error "boom" : Except String Nat)) (fun _ => "boom")
      (fun n => ⟨le_refl 0, by norm_num⟩)).1
  · rw [(C7_retry_behavior 1 10 true (fun _ => 0)
      (fun _ => (.error "boom" : Except String Nat)) (fun _ => "boom")
      (fun n => ⟨le_refl 0, by norm_num⟩)).2.2.2 (fun k _ => rfl)]
    have h5 : withJitter 10 0 = 5 := by
      rw [withJitter, round_eq]
      norm_num
    simp [List.range_succ, h5]

/-- C8 (amended): circuit-breaker state is shared across executions
only when the environment supplies a circuit provider (such as the std
env's makeCircuit backed by a process-wide map keyed by circuit name);
without a provider, getCircuitState manufactures a fresh closed state
for every weave invocation, so a second execution within the cooldown
window of a first execution's failure still invokes the underlying
function, while with a provider returning the tripped state it
fast-fails with circuit-open. -/
theorem C8_circuit_state_shared_only_via_provider
    (label : String) (pname : Option String) (cd t1 t2 tf2 : Nat)
    (e : E) (inner2 : Except E V) (h : t2 < t1 + cd) :
    (getCircuitState label pname none = { openUntil := some 0 })
    ∧ ((circuitCall cd t2 tf2 (getCircuitState label pname none) inner2).invoked
        = true)
    ∧ (circuitCall cd t2 tf2
        (getCircuitState label pname
          (some (fun _ => (circuitCall cd t1 t1 { openUntil := some 0 }
            (.error e : Except E V)).state)))
        inner2 =
      { state := (circuitCall cd t1 t1 { openUntil := some 0 }
          (.error e : Except E V)).state,
        invoked := false, warned := true, result := .error .circuitOpen }) := by
  have hst : (circuitCall cd t1 t1 { openUntil := some 0 }
      (.error e : Except E V)).state = { openUntil := some (t1 + cd) } := by
    simp [circuitCall]
  refine ⟨rfl, ?_, ?_⟩
  · cases inner2 <;> simp [circuitCall, getCircuitState]
  · rw [hst]
    simp [circuitCall, getCircuitState, h]

/-- Witness for C8 (amended): circuit "api", cooldown 5000, first
execution fails at t = 1000; a second execution at t = 2000 without a
provider invokes the underlying function, while with the
state-returning provider it fast-fails. -/
theorem C8_circuit_state_shared_only_via_provider_witness :
    (2000 : Nat) < 1000 + 5000
    ∧ (getCircuitState "http" (some "api") none = { openUntil := some 0 })
    ∧ ((circuitCall 5000 2000 2000 (getCircuitState "http" (some "api") none)
        (.ok 7 : Except String Nat)).invoked = true)
    ∧ (circuitCall 5000 2000 2000
        (getCircuitState "http" (some "api")
          (some (fun _ => (circuitCall 5000 1000 1000 { openUntil := some 0 }
            (.error "boom" : Except String Nat)).state)))
        (.ok 7 : Except String Nat) =
      { state := (circuitCall 5000 1000 1000 { openUntil := some 0 }
          (.error "boom" : Except String Nat)).state,
        invoked := false, warned := true, result := .error .circuitOpen }) :=
  ⟨by decide,
   (C8_circuit_state_shared_only_via_provider "http" (some "api")
      5000 1000 2000 2000 "boom" (.ok 7 : Except String Nat) (by decide)).1,
   (C8_circuit_state_shared_only_via_provider "http" (some "api")
      5000 1000 2000 2000 "boom" (.ok 7 : Except String Nat) (by decide)).2.1,
   (C8_circuit_state_shared_only_via_provider "http" (some "api")
      5000 1000 2000 2000 "boom" (.ok 7 : Except String Nat) (by decide)).2.2⟩

end Fix
